import Mathlib

/-!
Verification development for the `awsutils` Go package.

The definitions below are a shallow embedding of the repository's source
(`awsutils.go`, second revision, the one the claims reference) together
with the small fragments of the Go standard library (`path.Clean`,
`path.Join`, `filepath.ToSlash`, `filepath.Walk`, `regexp.Match`) and of
the AWS SDK batch-upload driver that the source calls.  Strings are
modelled at the character level (`List Char`), which coincides with Go's
byte-level treatment on the ASCII inputs exercised here.  External
effects (network, filesystem) are modelled by explicit oracles and
effect traces so that the control flow of the source is kept exactly.
-/

/-! ## Path mapping: Go `path.Clean`, `path.Join`, `filepath.ToSlash`, and `toKey` -/

/-- Split a character list on the `/` separator (model of the element
decomposition performed by Go `path.Clean`). -/
def splitSlash : List Char → List (List Char)
  | [] => [[]]
  | c :: rest =>
    let r := splitSlash rest
    if c = '/' then [] :: r
    else
      match r with
      | [] => [[c]]
      | h :: t => (c :: h) :: t

/-- One step of Go `path.Clean`'s element processing: drop empty and `.`
elements, resolve `..` against the output stack (kept when the path is
relative and the stack cannot be popped, dropped at the root when the
path is rooted). -/
def cleanStep (rooted : Bool) (out : List (List Char)) (part : List Char) : List (List Char) :=
  if part = [] || part = ['.'] then out
  else if part = ['.', '.'] then
    if out = [] then (if rooted then [] else [part])
    else if out.getLast? = some ['.', '.'] then out ++ [part]
    else out.dropLast
  else out ++ [part]

/-- Model of Go `path.Clean` (lexical path normalisation), computed by
splitting on `/` and processing the elements left to right. -/
def pathCleanL (p : List Char) : List Char :=
  match p with
  | [] => ['.']
  | c :: _ =>
    let rooted := c = '/'
    let parts := (splitSlash p).foldl (cleanStep rooted) []
    let res := (if rooted then ['/'] else []) ++ List.intercalate ['/'] parts
    if res = [] then ['.'] else res

/-- Model of Go `path.Join` restricted to two elements, as used in
`saveObject` and `mkDirIfNeeded`: join with `/` and clean; empty
elements are skipped as in the Go source. -/
def pathJoinL (a b : List Char) : List Char :=
  if a = [] then (if b = [] then [] else pathCleanL b)
  else pathCleanL (a ++ '/' :: b)

/-- The platform path separator.  The code runs on a platform where the
separator is `/`, so `filepath.ToSlash` is the identity; the replacement
is still written out as in the Go source. -/
def filepathSeparator : Char := '/'

/-- Model of Go `filepath.ToSlash`: replace every platform separator by
`/`. -/
def toSlashL (l : List Char) : List Char :=
  l.map (fun c => if c = filepathSeparator then '/' else c)

/-- Function `toKey` from the source: normalise the file name to slashes and drop
the `baseDir + "/"` prefix by length (`dir[len(baseDir+"/"):]`).
Character-level `drop` coincides with Go's byte slicing on the ASCII
inputs used here and totalises the out-of-range case. -/
def toKey (baseDir fileName : String) : String :=
  String.mk ((toSlashL fileName.data).drop (baseDir.data ++ ['/']).length)

/-- Go `path.Join` on strings, as called by `saveObject` and
`mkDirIfNeeded`. -/
def pathJoin (a b : String) : String :=
  String.mk (pathJoinL a.data b.data)

/-- The local destination path computed by `saveObject`
(`path.Join(baseDir, key)`); this is the spec's `toLocalPath`. -/
def toLocalPath (baseDir key : String) : String :=
  pathJoin baseDir key

theorem toSlashL_eq (l : List Char) : toSlashL l = l := by
  induction l with
  | nil => rfl
  | cons c rest ih =>
    simp only [toSlashL, List.map] at *
    rw [ih]
    by_cases h : c = filepathSeparator
    · simp [h, filepathSeparator]
    · simp [filepathSeparator] at h
      simp [filepathSeparator, h]

/-! ## Model of Go `regexp.Match` (the RE2 fragment the repository's patterns use)

`DownloadBucket` calls `regexp.Match(excludePatten, key)`, which compiles
the pattern and reports whether the key contains a match.  The model
below implements the fragment of RE2 needed for the patterns at issue:
literals, escaped punctuation (`\.`), `.`, character classes `[...]`
(an unterminated class is a parse error, as in Go), the anchors `^` and
`$`, and the quantifiers `*`, `+`, `?`.  Perl classes (`\d` …), groups
and alternation are outside the modelled fragment and parse to an
error. -/

/-- A single-character regex atom. -/
inductive RAtom
  | lit (c : Char)
  | any
  | cls (neg : Bool) (ranges : List (Char × Char))
deriving DecidableEq

/-- A compiled regex element: an atom, a quantified atom, or an anchor. -/
inductive RItem
  | atom (a : RAtom)
  | star (a : RAtom)
  | opt (a : RAtom)
  | startAnchor
  | endAnchor
deriving DecidableEq

/-- Does the atom match one character?  `.` matches anything but a
newline, as in RE2 without the `s` flag. -/
def matchAtom : RAtom → Char → Bool
  | RAtom.lit c, x => x = c
  | RAtom.any, x => x != '\n'
  | RAtom.cls neg ranges, x =>
    let inCls := ranges.any (fun r => decide (r.1 ≤ x) && decide (x ≤ r.2))
    if neg then !inCls else inCls

/-- Match the item list against the text starting at the current
position; `atStart` records whether the position is the start of the
text (for `^`).  Every recursive call strictly decreases
`s.length + pat.length`, so the recursion is phrased structurally on a
fuel bounded by that sum (see `matchHere`); the fuel never runs out. -/
def matchHereF : Nat → List RItem → List Char → Bool → Bool
  | 0, _, _, _ => false
  | Nat.succ _, [], _, _ => true
  | Nat.succ n, RItem.startAnchor :: rest, s, atStart =>
    atStart && matchHereF n rest s atStart
  | Nat.succ n, RItem.endAnchor :: rest, s, atStart =>
    s.isEmpty && matchHereF n rest s atStart
  | Nat.succ _, RItem.atom _ :: _, [], _ => false
  | Nat.succ n, RItem.atom a :: rest, c :: s, _ =>
    matchAtom a c && matchHereF n rest s false
  | Nat.succ n, RItem.opt a :: rest, s, atStart =>
    matchHereF n rest s atStart ||
      (match s with
       | [] => false
       | c :: s2 => matchAtom a c && matchHereF n rest s2 false)
  | Nat.succ n, RItem.star a :: rest, s, atStart =>
    matchHereF n rest s atStart ||
      (match s with
       | [] => false
       | c :: s2 => matchAtom a c && matchHereF n (RItem.star a :: rest) s2 false)

/-- Match at the current position, with sufficient fuel. -/
def matchHere (pat : List RItem) (s : List Char) (atStart : Bool) : Bool :=
  matchHereF (s.length + pat.length + 1) pat s atStart

/-- Unanchored search: try to match at every position of the text, as
`regexp.Match` does. -/
def searchFrom (pat : List RItem) : List Char → Bool → Bool
  | [], atStart => matchHere pat [] atStart
  | c :: s2, atStart => matchHere pat (c :: s2) atStart || searchFrom pat s2 false

/-- Parse the items of a character class, up to the closing `]`; an
exhausted input is Go's "missing closing ]" error. -/
def parseClassItems (fuel : Nat) (cs : List Char) (acc : List (Char × Char)) :
    Except String (List (Char × Char) × List Char) :=
  match fuel, cs with
  | _, [] => Except.error "missing closing ]"
  | 0, _ => Except.error "pattern too large for model fuel"
  | Nat.succ f, ']' :: rest => Except.ok (acc, rest)
  | Nat.succ _, '\\' :: [] => Except.error "trailing backslash at end of expression"
  | Nat.succ f, '\\' :: c :: rest => parseClassItems f rest (acc ++ [(c, c)])
  | Nat.succ f, a :: '-' :: b :: rest => parseClassItems f rest (acc ++ [(a, b)])
  | Nat.succ f, c :: rest => parseClassItems f rest (acc ++ [(c, c)])

/-- Parse one atom from the head of the pattern. -/
def parseOneAtom (fuel : Nat) (cs : List Char) : Except String (RAtom × List Char) :=
  match cs with
  | [] => Except.error "empty atom"
  | '\\' :: [] => Except.error "trailing backslash at end of expression"
  | '\\' :: c :: rest =>
    if c.isAlphanum then Except.error "unsupported escape in modelled fragment"
    else Except.ok (RAtom.lit c, rest)
  | '[' :: '^' :: rest =>
    match parseClassItems fuel rest [] with
    | Except.error e => Except.error e
    | Except.ok (rs, rest2) => Except.ok (RAtom.cls true rs, rest2)
  | '[' :: rest =>
    match parseClassItems fuel rest [] with
    | Except.error e => Except.error e
    | Except.ok (rs, rest2) => Except.ok (RAtom.cls false rs, rest2)
  | '.' :: rest => Except.ok (RAtom.any, rest)
  | c :: rest => Except.ok (RAtom.lit c, rest)

/-- Parse a whole pattern into a list of items (fuelled recursion; the
fuel is at least the pattern length plus one, so it never runs out on a
real pattern). -/
def parseItemsAux (fuel : Nat) (cs : List Char) : Except String (List RItem) :=
  match fuel with
  | 0 => Except.error "pattern too large for model fuel"
  | Nat.succ f =>
    match cs with
    | [] => Except.ok []
    | '^' :: rest =>
      match parseItemsAux f rest with
      | Except.error e => Except.error e
      | Except.ok items => Except.ok (RItem.startAnchor :: items)
    | '$' :: rest =>
      match parseItemsAux f rest with
      | Except.error e => Except.error e
      | Except.ok items => Except.ok (RItem.endAnchor :: items)
    | '*' :: _ => Except.error "missing argument to repetition operator"
    | '+' :: _ => Except.error "missing argument to repetition operator"
    | '?' :: _ => Except.error "missing argument to repetition operator"
    | '(' :: _ => Except.error "unsupported construct in modelled fragment"
    | ')' :: _ => Except.error "unexpected )"
    | '|' :: _ => Except.error "unsupported construct in modelled fragment"
    | cs2 =>
      match parseOneAtom f cs2 with
      | Except.error e => Except.error e
      | Except.ok (a, rest) =>
        match rest with
        | '*' :: rest2 =>
          match parseItemsAux f rest2 with
          | Except.error e => Except.error e
          | Except.ok items => Except.ok (RItem.star a :: items)
        | '+' :: rest2 =>
          match parseItemsAux f rest2 with
          | Except.error e => Except.error e
          | Except.ok items => Except.ok (RItem.atom a :: RItem.star a :: items)
        | '?' :: rest2 =>
          match parseItemsAux f rest2 with
          | Except.error e => Except.error e
          | Except.ok items => Except.ok (RItem.opt a :: items)
        | _ =>
          match parseItemsAux f rest with
          | Except.error e => Except.error e
          | Except.ok items => Except.ok (RItem.atom a :: items)

/-- Compile a pattern string (model of `regexp.Compile`'s success or
failure on the fragment). -/
def regexpParse (pattern : String) : Except String (List RItem) :=
  parseItemsAux (pattern.length + 1) pattern.data

/-- Model of Go `regexp.Match(pattern, text)`: compile, then search the
text unanchored. -/
def regexpMatch (pattern text : String) : Except String Bool :=
  match regexpParse pattern with
  | Except.error e => Except.error e
  | Except.ok items => Except.ok (searchFrom items text.data true)

/-! ## Model of `DownloadBucket`'s per-key loop, `mkDirIfNeeded` and `saveObject`

The listing result (`result.Contents`) is a parameter; the filesystem
outcomes of `os.MkdirAll`, `os.Create` and the S3 download are oracles
(`mkdirOk`, `createOk`, `dlOk`).  The local filesystem is a list of
`(path, complete)` pairs: `os.Create` adds the file with `complete =
false`, a successful download completes it.  The goroutines only touch
distinct per-key state, so sequentialising them in listing order is
faithful for the set- and count-valued observations proved here.
`outcomes` is the observational ledger of how each dispatched key is
resolved (a success, or a failure logged by `saveObject`); the Go code
returns no such aggregate, which is exactly what some claims below are
measured against. -/

/-- Model of `strings.LastIndex(key, "/")` on the character level. -/
def lastIndexOfSlash (l : List Char) : Option Nat :=
  match l.reverse.findIdx? (fun c => c = '/') with
  | none => none
  | some j => some (l.length - 1 - j)

/-- Function `mkDirIfNeeded` from the source, with `os.MkdirAll`'s success as the
oracle `mkdirOk`: when the key has a `/`, the directory
`path.Join(baseDir, key[:lastIdx])` is created; otherwise nothing is
done and the result is success. -/
def mkDirIfNeeded (mkdirOk : String → Bool) (baseDir key : String) : Bool :=
  match lastIndexOfSlash key.data with
  | none => true
  | some lastIdx => mkdirOk (pathJoin baseDir (String.mk (key.data.take lastIdx)))

/-- How one dispatched download target resolved. -/
inductive DLOutcomeKind
  | success
  | createFailed
  | downloadFailed
deriving DecidableEq

/-- State threaded through the download batch: the local filesystem
(`(path, fully downloaded?)` pairs), the log lines, and the ledger of
resolved targets. -/
structure DLState where
  fs : List (String × Bool)
  logs : List String
  outcomes : List (String × DLOutcomeKind)
deriving DecidableEq

/-- The empty initial state of a download batch. -/
def emptyDL : DLState := ⟨[], [], []⟩

/-- Function `saveObject` from the source: `os.Create(path.Join(baseDir, key))`
(on failure log "Unable to open file" and return), then download into
the file (on failure log "Unable to download item:" and return).  The
created file is never removed in either failure branch. -/
def saveObject (createOk dlOk : String → Bool) (baseDir key : String) (st : DLState) : DLState :=
  let fileName := pathJoin baseDir key
  if createOk fileName then
    if dlOk key then
      { st with fs := st.fs ++ [(fileName, true)],
                outcomes := st.outcomes ++ [(key, DLOutcomeKind.success)] }
    else
      { st with fs := st.fs ++ [(fileName, false)],
                logs := st.logs ++ ["Unable to download item:" ++ key],
                outcomes := st.outcomes ++ [(key, DLOutcomeKind.downloadFailed)] }
  else
    { st with logs := st.logs ++ ["Unable to open file" ++ fileName],
              outcomes := st.outcomes ++ [(key, DLOutcomeKind.createFailed)] }

/-- The filter decision of `DownloadBucket`'s loop: a key is kept (and a
download dispatched) exactly when `regexp.Match` returns no error and
no match (`if err != nil || matched { continue }`). -/
def keepKey (excludePatten key : String) : Bool :=
  match regexpMatch excludePatten key with
  | Except.error _ => false
  | Except.ok matched => !matched

/-- The per-key loop of `DownloadBucket`: filter by the exclusion
pattern, then `mkDirIfNeeded` (a failure silently skips the key via
`continue`), then dispatch `saveObject`. -/
def downloadBucketKeys (createOk dlOk mkdirOk : String → Bool) (baseDir : String)
    (excludePatten : String) (keys : List String) (st : DLState) : DLState :=
  match keys with
  | [] => st
  | key :: rest =>
    if keepKey excludePatten key then
      if mkDirIfNeeded mkdirOk baseDir key then
        downloadBucketKeys createOk dlOk mkdirOk baseDir excludePatten rest
          (saveObject createOk dlOk baseDir key st)
      else
        downloadBucketKeys createOk dlOk mkdirOk baseDir excludePatten rest st
    else
      downloadBucketKeys createOk dlOk mkdirOk baseDir excludePatten rest st

/-- Function `DownloadBucket` itself: a listing error is returned as the error of
the whole call; otherwise the loop runs over the listed keys and the
call returns success regardless of per-key outcomes. -/
def downloadBucket (createOk dlOk mkdirOk : String → Bool) (baseDir : String)
    (excludePatten : String) (listing : Except String (List String)) :
    Except String DLState :=
  match listing with
  | Except.error e => Except.error e
  | Except.ok keys =>
    Except.ok (downloadBucketKeys createOk dlOk mkdirOk baseDir excludePatten keys emptyDL)

/-- Number of targets resolved as successes in a batch state. -/
def succeededCount (st : DLState) : Nat :=
  (st.outcomes.filter (fun o => o.2 = DLOutcomeKind.success)).length

/-- Number of targets resolved as recorded (logged) failures in a batch
state. -/
def failedCount (st : DLState) : Nat :=
  (st.outcomes.filter (fun o => ¬ o.2 = DLOutcomeKind.success)).length

/-- The keys of a listing for which `DownloadBucket` actually dispatches
a `saveObject` goroutine: kept by the filter and with a successful
`mkDirIfNeeded`. -/
def dispatchedKeys (mkdirOk : String → Bool) (baseDir excludePatten : String)
    (keys : List String) : List String :=
  keys.filter (fun k => keepKey excludePatten k && mkDirIfNeeded mkdirOk baseDir k)

/-! ## Model of `getFiles` (`filepath.Walk`), the `directoryIterator`, and the batch-upload driver -/

/-- A Go runtime panic relevant to this code: dereferencing the nil
`os.FileInfo` that `filepath.Walk` passes to the callback when the root
`lstat` fails. -/
inductive GoPanic
  | nilFileInfoDeref
deriving DecidableEq

/-- The part of `os.FileInfo` the walk callback consults. -/
structure FileInfoM where
  isDir : Bool
deriving DecidableEq

/-- The walk callback of `getFiles`: append non-directory paths to the
accumulator and always return `nil`; the `err` argument is ignored.
Consulting `info.IsDir()` when `info` is nil is a nil dereference. -/
def getFilesWalkFn (files : List String) (path : String) (info : Option FileInfoM)
    (err : Option String) : Except GoPanic (List String × Option String) :=
  match info with
  | none => Except.error GoPanic.nilFileInfoDeref
  | some i => Except.ok ((if !i.isDir then files ++ [path] else files), none)

/-- A model directory tree: regular files and directories (a directory
carries whether reading its entries succeeds). -/
inductive FSNode
  | file (name : String)
  | dir (name : String) (readable : Bool) (children : List FSNode)

/-- The entry name of a node. -/
def FSNode.name : FSNode → String
  | FSNode.file n => n
  | FSNode.dir n _ _ => n

mutual
/-- Model of `filepath.Walk`'s recursion specialised to `getFiles`'s callback:
visit the node, and for a readable directory descend into its children
(the callback returns `nil`, so an unreadable directory is skipped with
no error, per the Go walk). -/
def walkNodeModel (path : String) (node : FSNode) (files : List String) :
    Except GoPanic (List String) :=
  match node with
  | FSNode.file _ =>
    match getFilesWalkFn files path (some ⟨false⟩) none with
    | Except.error p => Except.error p
    | Except.ok (fs2, _) => Except.ok fs2
  | FSNode.dir _ readable children =>
    match getFilesWalkFn files path (some ⟨true⟩)
        (if readable then none else some "permission denied") with
    | Except.error p => Except.error p
    | Except.ok (fs2, _) =>
      if readable then walkChildrenModel path children fs2 else Except.ok fs2

/-- Walk the children of a directory in order, threading the
accumulated file list. -/
def walkChildrenModel (path : String) (children : List FSNode) (files : List String) :
    Except GoPanic (List String) :=
  match children with
  | [] => Except.ok files
  | c :: rest =>
    match walkNodeModel (pathJoin path c.name) c files with
    | Except.error p => Except.error p
    | Except.ok fs2 => walkChildrenModel path rest fs2
end

/-- Model of `filepath.Walk(root, fn)` for `getFiles`: if the root `lstat` fails
(missing root, modelled by `none`), the callback is invoked with a nil
`FileInfo`; otherwise the tree is walked. -/
def filepathWalkModel (root : String) (fsTree : Option FSNode) :
    Except GoPanic (List String) :=
  match fsTree with
  | none =>
    match getFilesWalkFn [] root none (some "lstat root: no such file or directory") with
    | Except.error p => Except.error p
    | Except.ok (fs2, _) => Except.ok fs2
  | some node => walkNodeModel root node []

/-- Function `getFiles` from the source: run the walk and return the collected
paths.  The `if err != nil { log.Println(err) }` in the source is
unobservable here because the callback always returns `nil`, so the
walk's returned error is always `nil` (when it does not panic). -/
def getFiles (fsTree : Option FSNode) (root : String) : Except GoPanic (List String) :=
  filepathWalkModel root fsTree

/-- The `directoryIterator` of the source. -/
structure DirectoryIterator where
  filePaths : List String
  bucket : String
  baseDir : String
  nextPath : String
  nextKey : String
  nextF : Option String
  err : Option String
deriving DecidableEq

/-- Function `createIterator` from the source: enumerate the tree and build the
iterator. -/
def createIterator (fsTree : Option FSNode) (baseDir bucket : String) :
    Except GoPanic DirectoryIterator :=
  match getFiles fsTree baseDir with
  | Except.error p => Except.error p
  | Except.ok paths => Except.ok ⟨paths, bucket, baseDir, "", "", none, none⟩

/-- Method `directoryIterator.Next` from the source, with `os.Open`'s success
as the oracle `openOk`: when the list is exhausted return `false`;
otherwise open the head path, record the open error (if any) in
`iter.err`, fill in the next path/key/handle, and return
`true && iter.Err() == nil` — so an open failure makes `Next` return
`false`. -/
def DirectoryIterator.next (openOk : String → Bool) (iter : DirectoryIterator) :
    Bool × DirectoryIterator :=
  match iter.filePaths with
  | [] => (false, { iter with nextF := none })
  | p :: rest =>
    let fOpt : Option String := if openOk p then some p else none
    let e : Option String := if openOk p then none else some ("open " ++ p ++ ": error")
    let iter2 : DirectoryIterator :=
      { iter with err := e, nextF := fOpt, nextPath := p,
                  nextKey := toKey iter.baseDir p, filePaths := rest }
    (e.isNone, iter2)

/-- Model of the AWS SDK's `UploadWithIterator` pull loop (the external
batch driver the source hands its iterator to): repeatedly call
`Next`; while it returns `true`, upload the object `UploadObject`
describes, collecting per-upload errors; stop as soon as `Next` returns
`false`.  Returns the keys for which an upload was attempted, the
collected upload errors, and the final iterator. -/
def uploadWithIterator (openOk uploadOk : String → Bool) :
    Nat → DirectoryIterator → List String → List String →
    List String × List String × DirectoryIterator
  | 0, iter, attempted, errs => (attempted, errs, iter)
  | Nat.succ n, iter, attempted, errs =>
    let r := iter.next openOk
    if r.1 then
      let k := r.2.nextKey
      let errs2 := if uploadOk k then errs else errs ++ ["upload failed: " ++ k]
      uploadWithIterator openOk uploadOk n r.2 (attempted ++ [k]) errs2
    else (attempted, errs, r.2)

/-- The batch-upload run starting from a freshly created iterator over
the given paths (fuel one more than the number of paths, which the loop
can never exhaust). -/
def runUploadBucket (openOk uploadOk : String → Bool) (baseDir bucket : String)
    (paths : List String) : List String × List String × DirectoryIterator :=
  uploadWithIterator openOk uploadOk (paths.length + 1)
    ⟨paths, bucket, baseDir, "", "", none, none⟩ [] []

/-- Function `UploadBucket` from the source: create the iterator over the local
tree and hand it to the SDK driver; the returned error is the driver's
batch error (present only when some attempted upload failed). -/
def uploadBucket (openOk uploadOk : String → Bool) (fsTree : Option FSNode)
    (baseDir bucket : String) : Except GoPanic (Option String × List String) :=
  match createIterator fsTree baseDir bucket with
  | Except.error p => Except.error p
  | Except.ok iter =>
    let r := uploadWithIterator openOk uploadOk (iter.filePaths.length + 1) iter [] []
    Except.ok ((if r.2.1 = [] then none else some "some objects have failed to upload."), r.1)

/-! ## `findMissingParametres` (CloudFormation parameter diff) -/

/-- Go map lookup `parameters[key]` modelled on an association list. -/
def lookupParam (parameters : List (String × String)) (key : String) : Option String :=
  match parameters with
  | [] => none
  | (k, v) :: rest => if k = key then some v else lookupParam rest key

/-- The loop of `findMissingParametres`: collect, in iteration order,
every required key whose default value is nil and which the caller did
not supply. -/
def missingKeys (templateParam : List (String × Option String))
    (parameters : List (String × String)) : List String :=
  match templateParam with
  | [] => []
  | (key, defaultValue) :: rest =>
    let doesKeyExist := (lookupParam parameters key).isSome
    if !doesKeyExist && defaultValue.isNone then
      key :: missingKeys rest parameters
    else
      missingKeys rest parameters

/-- Function `findMissingParametres` from the source: `nil` when no key is
missing, otherwise the `Missing: [...]` error.  The Go map is modelled
as an association list (map iteration order only affects the message
text, not whether an error is returned). -/
def findMissingParametres (templateParam : List (String × Option String))
    (parameters : List (String × String)) : Option String :=
  match missingKeys templateParam parameters with
  | [] => none
  | ms => some ("Missing: [" ++ String.intercalate "," ms ++ "]")

/-! ## The `Bucket` transfer context (modelled from the spec)

`s3_test.go` exercises a `Bucket` type (`Bucket{}`, `NewBucket`,
`b.DownloadBucket(nil)`) whose source file is not under `src/`; only the
error string `messageClientNotDefined` is.  The context is therefore
modelled from the spec's construction contract. -/

/-- The defined "client not configured" error string (from the source,
`const messageClientNotDefined`). -/
def messageClientNotDefined : String := "Aws Client not defined"

/-- A network or file-system call a transfer operation could make. -/
inductive Effect
  | listObjects
  | mkdirAll (p : String)
  | createFile (p : String)
  | getObject (key : String)
  | walkDir (p : String)
  | openFile (p : String)
  | putObject (key : String)
deriving DecidableEq

/-- A model S3 client: the response its single-page listing returns. -/
structure S3ClientM where
  listing : Except String (List String)

/-- Modelled from the spec: the `Bucket` transfer context of the
repository (constructed by `NewBucket`, exercised by `s3_test.go`, its
source file missing from `src/`): an optional already-authenticated
client handle plus the base directory and bucket name. -/
structure Bucket where
  client : Option S3ClientM
  baseDir : String
  bucketName : String

/-- Modelled from the spec: `NewBucket` injects the client handle at
construction time. -/
def NewBucket (c : S3ClientM) (dir name : String) : Bucket :=
  ⟨some c, dir, name⟩

/-- Modelled from the spec: `Bucket.DownloadBucket`.  With no configured
client it returns the defined "client not configured" error immediately
and performs no network or file-system calls (empty effect trace).
With a client it lists the bucket once and transfers every key not
dropped by the optional exclusion pattern (non-empty and matching drops
the key; a matching failure does not exclude), creating directories and
files as needed. -/
def Bucket.downloadBucketM (b : Bucket) (excludePatten : Option String) :
    Except String Unit × List Effect :=
  match b.client with
  | none => (Except.error messageClientNotDefined, [])
  | some c =>
    match c.listing with
    | Except.error e => (Except.error e, [Effect.listObjects])
    | Except.ok keys =>
      let kept := keys.filter (fun k =>
        match excludePatten with
        | none => true
        | some p =>
          if p = "" then true
          else
            match regexpMatch p k with
            | Except.error _ => true
            | Except.ok m => !m)
      let effects := kept.foldl (fun acc k =>
        acc ++ [Effect.mkdirAll (pathJoin b.baseDir k),
                Effect.createFile (pathJoin b.baseDir k),
                Effect.getObject k]) []
      (Except.ok (), Effect.listObjects :: effects)

/-- Modelled from the spec: `Bucket.UploadBucket`.  With no configured
client it returns the defined "client not configured" error immediately
and performs no network or file-system calls; with one it enumerates the
local tree and streams each file to its key. -/
def Bucket.uploadBucketM (b : Bucket) (fsTree : Option FSNode) :
    Except GoPanic (Except String Unit × List Effect) :=
  match b.client with
  | none => Except.ok (Except.error messageClientNotDefined, [])
  | some _ =>
    match getFiles fsTree b.baseDir with
    | Except.error p => Except.error p
    | Except.ok files =>
      Except.ok (Except.ok (),
        Effect.walkDir b.baseDir ::
          files.foldl (fun acc f =>
            acc ++ [Effect.openFile f, Effect.putObject (toKey b.baseDir f)]) [])

/-! ## Helper lemmas -/

theorem matchHere_nil (s : List Char) (b : Bool) : matchHere [] s b = true := rfl

theorem searchFrom_nilPat (s : List Char) (b : Bool) : searchFrom [] s b = true := by
  cases s with
  | nil => rfl
  | cons c s2 => simp [searchFrom, matchHere_nil]

theorem regexpMatch_empty (k : String) : regexpMatch "" k = Except.ok true := by
  have h : regexpMatch "" k = Except.ok (searchFrom [] k.data true) := rfl
  rw [h, searchFrom_nilPat]

theorem keepKey_empty (k : String) : keepKey "" k = false := by
  simp [keepKey, regexpMatch_empty]

theorem keepKey_of_parse_error (pattern k e : String)
    (h : regexpParse pattern = Except.error e) : keepKey pattern k = false := by
  simp [keepKey, regexpMatch, h]

theorem downloadBucketKeys_skip_all (createOk dlOk mkdirOk : String → Bool)
    (baseDir excludePatten : String) (keys : List String) (st : DLState)
    (h : ∀ k, keepKey excludePatten k = false) :
    downloadBucketKeys createOk dlOk mkdirOk baseDir excludePatten keys st = st := by
  induction keys with
  | nil => rfl
  | cons k rest ih => simp [downloadBucketKeys, h k, ih]

theorem saveObject_outcomes (createOk dlOk : String → Bool) (baseDir key : String)
    (st : DLState) :
    ∃ o, (saveObject createOk dlOk baseDir key st).outcomes = st.outcomes ++ [o] := by
  unfold saveObject
  by_cases hc : createOk (pathJoin baseDir key) = true
  · by_cases hd : dlOk key = true
    · exact ⟨(key, DLOutcomeKind.success), by simp [hc, hd]⟩
    · exact ⟨(key, DLOutcomeKind.downloadFailed), by simp [hc, hd]⟩
  · exact ⟨(key, DLOutcomeKind.createFailed), by simp [hc]⟩

theorem saveObject_fs_mono (createOk dlOk : String → Bool) (baseDir key : String)
    (st : DLState) (x : String × Bool) (h : x ∈ st.fs) :
    x ∈ (saveObject createOk dlOk baseDir key st).fs := by
  unfold saveObject
  by_cases hc : createOk (pathJoin baseDir key) = true
  · by_cases hd : dlOk key = true
    · simp [hc, hd, h]
    · simp [hc, hd, h]
  · simp [hc, h]

theorem downloadBucketKeys_fs_mono (createOk dlOk mkdirOk : String → Bool)
    (baseDir excludePatten : String) (keys : List String) (st : DLState)
    (x : String × Bool) (h : x ∈ st.fs) :
    x ∈ (downloadBucketKeys createOk dlOk mkdirOk baseDir excludePatten keys st).fs := by
  induction keys generalizing st with
  | nil => exact h
  | cons k rest ih =>
    unfold downloadBucketKeys
    by_cases hk : keepKey excludePatten k = true
    · by_cases hm : mkDirIfNeeded mkdirOk baseDir k = true
      · simp [hk, hm]
        exact ih _ (saveObject_fs_mono _ _ _ _ _ _ h)
      · simp [hk, hm]
        exact ih _ h
    · simp [hk]
      exact ih _ h

theorem downloadBucketKeys_outcomes_length (createOk dlOk mkdirOk : String → Bool)
    (baseDir excludePatten : String) (keys : List String) (st : DLState) :
    (downloadBucketKeys createOk dlOk mkdirOk baseDir excludePatten keys st).outcomes.length
      = st.outcomes.length
        + (dispatchedKeys mkdirOk baseDir excludePatten keys).length := by
  induction keys generalizing st with
  | nil => simp [downloadBucketKeys, dispatchedKeys]
  | cons k rest ih =>
    by_cases hk : keepKey excludePatten k = true
    · by_cases hm : mkDirIfNeeded mkdirOk baseDir k = true
      · obtain ⟨o, ho⟩ := saveObject_outcomes createOk dlOk baseDir k st
        simp [downloadBucketKeys, dispatchedKeys, List.filter_cons, hk, hm, ih, ho]
        omega
      · simp [downloadBucketKeys, dispatchedKeys, List.filter_cons, hk, hm, ih]
    · simp [downloadBucketKeys, dispatchedKeys, List.filter_cons, hk, ih]

theorem length_filter_partition (l : List (String × DLOutcomeKind)) :
    (l.filter (fun o => o.2 = DLOutcomeKind.success)).length
      + (l.filter (fun o => ¬ o.2 = DLOutcomeKind.success)).length = l.length := by
  induction l with
  | nil => rfl
  | cons x rest ih =>
    obtain ⟨k, o⟩ := x
    simp only [decide_not] at ih
    cases o
    · simp [List.filter_cons, decide_not]
      omega
    · simp [List.filter_cons, decide_not]
      omega
    · simp [List.filter_cons, decide_not]
      omega

theorem counts_eq_outcomes (st : DLState) :
    succeededCount st + failedCount st = st.outcomes.length := by
  unfold succeededCount failedCount
  exact length_filter_partition st.outcomes

theorem toKey_of_append (baseDir rest : String) :
    toKey baseDir (String.mk (baseDir.data ++ '/' :: rest.data)) = rest := by
  unfold toKey
  rw [toSlashL_eq]
  have h2 : baseDir.data ++ '/' :: rest.data = (baseDir.data ++ ['/']) ++ rest.data := by
    simp
  rw [h2, List.drop_left]

theorem pathJoinL_of_clean (bd r : List Char) (hbd : bd ≠ [])
    (hclean : pathCleanL (bd ++ '/' :: r) = bd ++ '/' :: r) :
    pathJoinL bd r = bd ++ '/' :: r := by
  unfold pathJoinL
  rw [if_neg hbd, hclean]

theorem missingKeys_cons (k : String) (dv : Option String)
    (rest : List (String × Option String)) (parameters : List (String × String)) :
    missingKeys ((k, dv) :: rest) parameters
      = if !(lookupParam parameters k).isSome && dv.isNone then
          k :: missingKeys rest parameters
        else missingKeys rest parameters := rfl

theorem missingKeys_ne_nil_iff (templateParam : List (String × Option String))
    (parameters : List (String × String)) :
    missingKeys templateParam parameters ≠ []
      ↔ ∃ key, (key, none) ∈ templateParam ∧ lookupParam parameters key = none := by
  induction templateParam with
  | nil => simp [missingKeys]
  | cons kv rest ih =>
    obtain ⟨k, dv⟩ := kv
    rw [missingKeys_cons]
    by_cases hl : (lookupParam parameters k).isSome = false
    · by_cases hd : dv = none
      · rw [if_pos (by simp [hl, hd])]
        constructor
        · intro _
          exact ⟨k, by simp [hd], Option.not_isSome_iff_eq_none.mp (by simp [hl])⟩
        · intro _
          simp
      · rw [if_neg (by simp [hd])]
        rw [ih]
        constructor
        · intro ⟨key, hmem, hlook⟩
          exact ⟨key, List.mem_cons_of_mem _ hmem, hlook⟩
        · intro ⟨key, hmem, hlook⟩
          rcases List.mem_cons.mp hmem with hhead | htail
          · exfalso
            simp at hhead
            exact hd hhead.2.symm
          · exact ⟨key, htail, hlook⟩
    · rw [if_neg (by simp at hl ⊢; simp [hl])]
      rw [ih]
      constructor
      · intro ⟨key, hmem, hlook⟩
        exact ⟨key, List.mem_cons_of_mem _ hmem, hlook⟩
      · intro ⟨key, hmem, hlook⟩
        rcases List.mem_cons.mp hmem with hhead | htail
        · exfalso
          simp at hhead hl
          rw [hhead.1] at hlook
          rw [hlook] at hl
          simp at hl
        · exact ⟨key, htail, hlook⟩

theorem findMissingParametres_isSome_iff (templateParam : List (String × Option String))
    (parameters : List (String × String)) :
    (findMissingParametres templateParam parameters).isSome = true
      ↔ missingKeys templateParam parameters ≠ [] := by
  unfold findMissingParametres
  cases h : missingKeys templateParam parameters with
  | nil => simp
  | cons m ms => simp

/-! ## The claims -/

/-- Claim C1, counterexample: with the malformed pattern `"["` (Go's
"missing closing ]" compile error) matching the key `"a.txt"` fails,
yet `DownloadBucket` excludes the key — the batch state stays empty, no
directory, file or download happens.  This refutes the claim that a
matching failure is treated as "do not exclude" and that with an
invalid pattern every listed key is kept and downloaded. -/
theorem c1_counterexample :
    regexpMatch "[" "a.txt" = Except.error "missing closing ]" ∧
    downloadBucketKeys (fun _ => true) (fun _ => true) (fun _ => true)
      "base" "[" ["a.txt"] emptyDL = emptyDL :=
  ⟨rfl, by decide⟩

/-- Claim C1 as amended: a matching failure excludes the key.  With a
pattern that fails to compile, `DownloadBucket` skips every listed key
(`if err != nil || matched { continue }`), so no key is downloaded and
the batch state stays empty. -/
theorem c1_amended_theorem (pattern e : String) (createOk dlOk mkdirOk : String → Bool)
    (baseDir : String) (keys : List String)
    (h : regexpParse pattern = Except.error e) :
    downloadBucket createOk dlOk mkdirOk baseDir pattern (Except.ok keys)
      = Except.ok emptyDL := by
  have h0 : downloadBucket createOk dlOk mkdirOk baseDir pattern (Except.ok keys)
      = Except.ok (downloadBucketKeys createOk dlOk mkdirOk baseDir pattern keys emptyDL) := rfl
  rw [h0, downloadBucketKeys_skip_all createOk dlOk mkdirOk baseDir pattern keys emptyDL
    (fun k => keepKey_of_parse_error pattern k e h)]

/-- Witness for the amended claim C1 at the concrete malformed pattern
`"["` and a two-key listing. -/
theorem c1_witness :
    regexpParse "[" = Except.error "missing closing ]" ∧
    downloadBucket (fun _ => true) (fun _ => true) (fun _ => true) "base" "["
      (Except.ok ["a.txt", "b.tmp"]) = Except.ok emptyDL :=
  ⟨rfl, c1_amended_theorem "[" "missing closing ]" (fun _ => true) (fun _ => true)
    (fun _ => true) "base" ["a.txt", "b.tmp"] rfl⟩

/-- Claim C2, counterexample: two upload targets, opening the first
fails.  `directoryIterator.Next` records the error and returns `false`,
so the SDK pull loop stops immediately: no upload is attempted at all —
in particular the remaining openable target `base/f2` is never
processed.  This refutes the claim that the batch continues with the
remaining targets. -/
theorem c2_counterexample :
    (runUploadBucket (fun p => p != "base/f1") (fun _ => true) "base" "bkt"
        ["base/f1", "base/f2"]).1 = [] ∧
    (runUploadBucket (fun p => p != "base/f1") (fun _ => true) "base" "bkt"
        ["base/f1", "base/f2"]).2.2.err = some "open base/f1: error" := by
  decide

/-- Claim C2 as amended: a failure to open a local file stops the whole
upload batch at that target — the open error is recorded in the
iterator, `Next` returns `false`, and no target (neither the failing
one nor any remaining one) is submitted for upload. -/
theorem c2_amended_theorem (openOk uploadOk : String → Bool) (baseDir bucket p : String)
    (rest : List String) (h : openOk p = false) :
    (runUploadBucket openOk uploadOk baseDir bucket (p :: rest)).1 = [] ∧
    ((runUploadBucket openOk uploadOk baseDir bucket (p :: rest)).2.2.err).isSome = true := by
  constructor <;>
    simp [runUploadBucket, uploadWithIterator, DirectoryIterator.next, h]

/-- Witness for the amended claim C2 at a concrete failing first target
with one more target behind it. -/
theorem c2_witness :
    (fun p => p != "base/f1") "base/f1" = false ∧
    ((runUploadBucket (fun p => p != "base/f1") (fun _ => true) "base" "bkt"
        ["base/f1", "base/f2"]).1 = [] ∧
     ((runUploadBucket (fun p => p != "base/f1") (fun _ => true) "base" "bkt"
        ["base/f1", "base/f2"]).2.2.err).isSome = true) :=
  ⟨by decide, c2_amended_theorem (fun p => p != "base/f1") (fun _ => true) "base" "bkt"
    "base/f1" ["base/f2"] (by decide)⟩

/-- Claim C3: every transfer operation (download and upload) on a
transfer context with no configured client handle returns the defined
"client not configured" error immediately, with an empty effect trace —
no network call and no file-system call. -/
theorem c3_theorem (b : Bucket) (excludePatten : Option String) (fsTree : Option FSNode)
    (h : b.client = none) :
    b.downloadBucketM excludePatten = (Except.error messageClientNotDefined, []) ∧
    b.uploadBucketM fsTree = Except.ok (Except.error messageClientNotDefined, []) := by
  constructor
  · unfold Bucket.downloadBucketM
    rw [h]
  · unfold Bucket.uploadBucketM
    rw [h]

/-- Witness for claim C3: the zero-value context `Bucket{}` of the
repository's test, for both transfer operations. -/
theorem c3_witness :
    (Bucket.mk none "Dir" "Bucket").client = none ∧
    ((Bucket.mk none "Dir" "Bucket").downloadBucketM none
        = (Except.error messageClientNotDefined, []) ∧
     (Bucket.mk none "Dir" "Bucket").uploadBucketM none
        = Except.ok (Except.error messageClientNotDefined, [])) :=
  ⟨rfl, c3_theorem (Bucket.mk none "Dir" "Bucket") none none rfl⟩

/-- Claim C4, counterexample: the base directory exists but is
unreadable and contains a file; the enumeration (`getFiles` via
`filepath.Walk`) silently returns the empty file set with no error, and
the upload entry point returns success.  This refutes the claim that a
root-level walk failure surfaces a fatal enumeration error to the
caller. -/
theorem c4_counterexample :
    getFiles (some (FSNode.dir "base" false [FSNode.file "a.txt"])) "base" = Except.ok [] ∧
    uploadBucket (fun _ => true) (fun _ => true)
      (some (FSNode.dir "base" false [FSNode.file "a.txt"])) "base" "bkt"
      = Except.ok (none, []) :=
  ⟨rfl, rfl⟩

/-- Claim C4 as amended: a root-level walk failure is never surfaced as
an error value.  An unreadable base directory makes the enumeration
silently return an empty file set and the upload entry point return
success; a missing base directory makes the walk callback dereference
the nil `FileInfo` (a runtime panic), not return an enumeration
error. -/
theorem c4_amended_theorem (dirName root bucket : String) (children : List FSNode)
    (openOk uploadOk : String → Bool) :
    getFiles (some (FSNode.dir dirName false children)) root = Except.ok [] ∧
    uploadBucket openOk uploadOk (some (FSNode.dir dirName false children)) root bucket
      = Except.ok (none, []) ∧
    getFiles none root = Except.error GoPanic.nilFileInfoDeref :=
  ⟨rfl, rfl, rfl⟩

/-- Claim C5, counterexample: one listed key `a/b` passes the exclusion
filter (pattern `x` does not match it) but its directory creation
fails; `DownloadBucket` silently `continue`s — nothing is recorded, so
succeeded + failed = 0 while one target was enumerated. -/
theorem c5_counterexample :
    keepKey "x" "a/b" = true ∧
    ¬ (succeededCount (downloadBucketKeys (fun _ => true) (fun _ => true) (fun _ => false)
          "base" "x" ["a/b"] emptyDL)
        + failedCount (downloadBucketKeys (fun _ => true) (fun _ => true) (fun _ => false)
          "base" "x" ["a/b"] emptyDL)
        = (["a/b"] : List String).length) := by
  decide

/-- Claim C5 as amended: the accounting holds for the dispatched
targets only — every key that passes the filter and whose directory
creation succeeds is resolved exactly once as a success or a recorded
failure, so succeeded + failed equals the number of dispatched keys
(which can be smaller than the number of listed keys, since
filter-excluded keys and keys whose `mkDirIfNeeded` fails are silently
skipped with nothing recorded). -/
theorem c5_amended_theorem (createOk dlOk mkdirOk : String → Bool)
    (baseDir excludePatten : String) (keys : List String) :
    succeededCount (downloadBucketKeys createOk dlOk mkdirOk baseDir excludePatten keys emptyDL)
      + failedCount (downloadBucketKeys createOk dlOk mkdirOk baseDir excludePatten keys emptyDL)
      = (dispatchedKeys mkdirOk baseDir excludePatten keys).length := by
  rw [counts_eq_outcomes, downloadBucketKeys_outcomes_length]
  simp [emptyDL]

/-- Claim C6: path mapping is idempotent under composition — for a file
path `F = baseDir ++ "/" ++ rest` under a non-empty base directory,
with the composite path in clean (normalised) form as every path
produced by the tree enumerator is,
`toKey(baseDir, toLocalPath(baseDir, toKey(baseDir, F))) = toKey(baseDir, F)`. -/
theorem c6_theorem (baseDir rest F : String)
    (hbd : baseDir.data ≠ [])
    (hF : F.data = baseDir.data ++ '/' :: rest.data)
    (hclean : pathCleanL (baseDir.data ++ '/' :: rest.data)
      = baseDir.data ++ '/' :: rest.data) :
    toKey baseDir (toLocalPath baseDir (toKey baseDir F)) = toKey baseDir F := by
  have hF2 : F = String.mk (baseDir.data ++ '/' :: rest.data) := by
    have h0 : F = String.mk F.data := rfl
    rw [h0, hF]
  rw [hF2, toKey_of_append]
  have hjoin : toLocalPath baseDir rest = String.mk (baseDir.data ++ '/' :: rest.data) := by
    unfold toLocalPath pathJoin
    rw [pathJoinL_of_clean baseDir.data rest.data hbd hclean]
  rw [hjoin, toKey_of_append]

/-- Witness for claim C6 at `baseDir = "base"`, `F = "base/a/b.txt"`
(the spec's own example). -/
theorem c6_witness :
    ("base" : String).data ≠ [] ∧
    ("base/a/b.txt" : String).data = ("base" : String).data ++ '/' :: ("a/b.txt" : String).data ∧
    pathCleanL (("base" : String).data ++ '/' :: ("a/b.txt" : String).data)
      = ("base" : String).data ++ '/' :: ("a/b.txt" : String).data ∧
    toKey "base" (toLocalPath "base" (toKey "base" "base/a/b.txt"))
      = toKey "base" "base/a/b.txt" :=
  ⟨by decide, by decide, by decide,
   c6_theorem "base" "a/b.txt" "base/a/b.txt" (by decide) (by decide) (by decide)⟩

/-- Claim C7: the exclusion pattern `"\.tmp$"` applied to the listing
`["a.txt", "b.tmp", "c/d.tmp"]` drops exactly the matching keys: the
dispatched (transferred) keys are exactly `["a.txt"]`, and with all
filesystem and network operations succeeding that key is the single
success of the batch. -/
theorem c7_theorem :
    dispatchedKeys (fun _ => true) "base" "\\.tmp$" ["a.txt", "b.tmp", "c/d.tmp"]
      = ["a.txt"] ∧
    (downloadBucketKeys (fun _ => true) (fun _ => true) (fun _ => true) "base" "\\.tmp$"
        ["a.txt", "b.tmp", "c/d.tmp"] emptyDL).outcomes
      = [("a.txt", DLOutcomeKind.success)] := by
  decide

/-- Claim C8: `findMissingParametres` returns an error exactly when
some required key has a nil default value and is absent from the
caller-supplied parameters; when every such key is covered it returns
nil. -/
theorem c8_theorem (templateParam : List (String × Option String))
    (parameters : List (String × String)) :
    (findMissingParametres templateParam parameters).isSome = true
      ↔ ∃ key, (key, none) ∈ templateParam ∧ lookupParam parameters key = none := by
  rw [findMissingParametres_isSome_iff, missingKeys_ne_nil_iff]

/-- Claim C9: with an empty exclusion-pattern string, the empty regular
expression matches every key, so `DownloadBucket` excludes every listed
key and downloads nothing — the batch state stays empty for every
listing. -/
theorem c9_theorem (createOk dlOk mkdirOk : String → Bool) (baseDir : String)
    (keys : List String) (k : String) :
    regexpMatch "" k = Except.ok true ∧
    downloadBucket createOk dlOk mkdirOk baseDir "" (Except.ok keys) = Except.ok emptyDL := by
  refine ⟨regexpMatch_empty k, ?_⟩
  have h0 : downloadBucket createOk dlOk mkdirOk baseDir "" (Except.ok keys)
      = Except.ok (downloadBucketKeys createOk dlOk mkdirOk baseDir "" keys emptyDL) := rfl
  rw [h0, downloadBucketKeys_skip_all createOk dlOk mkdirOk baseDir "" keys emptyDL
    (fun k2 => keepKey_empty k2)]

/-- Claim C10: a failed download is not rolled back — for every
dispatched target whose local file creation succeeds and whose remote
fetch then fails, the created (incomplete) file at
`path.Join(baseDir, key)` is still present in the local filesystem
after the whole batch returns. -/
theorem c10_theorem (createOk dlOk mkdirOk : String → Bool)
    (baseDir excludePatten key : String) (keys : List String) (st : DLState)
    (hmem : key ∈ keys) (hkeep : keepKey excludePatten key = true)
    (hmk : mkDirIfNeeded mkdirOk baseDir key = true)
    (hcreate : createOk (toLocalPath baseDir key) = true)
    (hdl : dlOk key = false) :
    (toLocalPath baseDir key, false)
      ∈ (downloadBucketKeys createOk dlOk mkdirOk baseDir excludePatten keys st).fs := by
  revert hmem
  induction keys generalizing st with
  | nil => intro hmem; cases hmem
  | cons k2 rest ih =>
    intro hmem
    rcases List.mem_cons.mp hmem with heq | htail
    · subst heq
      unfold downloadBucketKeys
      rw [if_pos hkeep, if_pos hmk]
      apply downloadBucketKeys_fs_mono
      have hcreate2 : createOk (pathJoin baseDir key) = true := hcreate
      have hdl2 : ¬ dlOk key = true := by simp [hdl]
      unfold saveObject
      rw [if_pos hcreate2, if_neg hdl2]
      simp [toLocalPath]
    · unfold downloadBucketKeys
      by_cases hk2 : keepKey excludePatten k2 = true
      · by_cases hm2 : mkDirIfNeeded mkdirOk baseDir k2 = true
        · rw [if_pos hk2, if_pos hm2]
          exact ih _ htail
        · rw [if_pos hk2, if_neg hm2]
          exact ih _ htail
      · rw [if_neg hk2]
        exact ih _ htail

/-- Witness for claim C10 at a concrete one-key batch whose download
fails after the file was created. -/
theorem c10_witness :
    ("k" : String) ∈ (["k"] : List String) ∧
    keepKey "zz" "k" = true ∧
    mkDirIfNeeded (fun _ => true) "base" "k" = true ∧
    (fun _ => true) (toLocalPath "base" "k") = true ∧
    (fun _ => false) "k" = false ∧
    (toLocalPath "base" "k", false)
      ∈ (downloadBucketKeys (fun _ => true) (fun _ => false) (fun _ => true)
          "base" "zz" ["k"] emptyDL).fs :=
  ⟨by decide, by decide, by decide, by decide, by decide,
   c10_theorem (fun _ => true) (fun _ => false) (fun _ => true) "base" "zz" "k" ["k"]
     emptyDL (by decide) (by decide) (by decide) (by decide) (by decide)⟩
